import Mathlib

/-!
A shallow embedding of `Final_ExchangeRates.py`: the ECB cross-rate
pipeline that derives a USD→ZAR daily series from the USD/EUR and ZAR/EUR
reference rates, gap-fills it, aggregates monthly averages and merges the
two, together with proofs of the specification's claims about it.

Modelling conventions:
* rates are `ℚ`; a pandas `NaN` ("absent") cell is `Option.none`;
* a daily series is a `List (Option ℚ)` indexed by consecutive calendar
  days (the date axis from line 40 is contiguous, so list position and
  date coincide);
* Python code that can raise (`float` division by zero, the unguarded
  plotting block) is modelled in `Except` / an explicit error effect.
-/

/-! ### Cross-rate extraction (lines 22–31)

Each `<Cube time=...>` node gives a rate table: an association list from
currency code to the rate against the EUR reference. Python's dict lookup
`rates["USD"]` corresponds to the first matching key. -/

/-- Lookup of a currency in one date's rate table (`rates[...]` / `in rates`). -/
def lookupRate (c : String) (rates : List (String × ℚ)) : Option ℚ :=
  (rates.find? (fun r => r.1 = c)).map Prod.snd

/-- Lines 27–31 for one date: when both `"USD"` and `"ZAR"` are in the
table the script computes `zar_to_eur / usd_to_eur` (a Python float
division, which raises `ZeroDivisionError` on a zero denominator) and
appends `[date, usd_to_zar]`; otherwise the date is skipped. -/
def usd_to_zar_entry (date : String) (rates : List (String × ℚ)) :
    Except String (Option (String × ℚ)) :=
  match lookupRate "USD" rates, lookupRate "ZAR" rates with
  | some usd_to_eur, some zar_to_eur =>
      if usd_to_eur = 0 then Except.error "ZeroDivisionError"
      else Except.ok (some (date, zar_to_eur / usd_to_eur))
  | _, _ => Except.ok none

/-- The loop of lines 22–31: build `data` over the whole document, one
optional entry per date node, aborting at the first raised error. -/
def buildData : List (String × List (String × ℚ)) → Except String (List (String × ℚ))
  | [] => Except.ok []
  | (d, rs) :: t => do
    let e ← usd_to_zar_entry d rs
    let rest ← buildData t
    match e with
    | some ent => Except.ok (ent :: rest)
    | none => Except.ok rest

/-- The entry a non-raising date contributes to `data` (statement helper). -/
def okEntry (p : String × List (String × ℚ)) : Option (String × ℚ) :=
  match usd_to_zar_entry p.1 p.2 with
  | Except.ok e => e
  | Except.error _ => none

/-! ### The date axis (lines 40–46)

Dates are day numbers (`Nat`). `all_dates` is `pd.date_range(min, today)`
and `df_full` the left merge of that axis with the observed data. -/

/-- `df["InformationDate"].min()` over the observed data. -/
def minDate (data : List (Nat × ℚ)) : Nat :=
  match data.map Prod.fst with
  | [] => 0
  | d :: ds => ds.foldl min d

/-- Line 40: every calendar day from `start` to `today` inclusive. -/
def all_dates (start today : Nat) : List Nat :=
  List.range' start (today + 1 - start)

/-- Lines 43–46: reindex the observations onto the full axis; a day
without an observation gets `none` (pandas `NaN`). -/
def df_full (data : List (Nat × ℚ)) (today : Nat) : List (Nat × Option ℚ) :=
  (all_dates (minDate data) today).map
    (fun d => (d, (data.find? (fun p => p.1 = d)).map Prod.snd))

/-! ### Gap filling (lines 50 and 55) -/

/-- `Series.rolling(3).mean()`: with the pandas default
`min_periods = window = 3`, position `i` holds the mean of positions
`i-2, i-1, i` when all three exist and are numeric, else `NaN`. -/
def rolling3mean (s : List (Option ℚ)) : List (Option ℚ) :=
  (List.range s.length).map (fun i =>
    if 2 ≤ i then
      match s.getD (i - 2) none, s.getD (i - 1) none, s.getD i none with
      | some a, some b, some c => some ((a + b + c) / 3)
      | _, _, _ => none
    else none)

/-- `Series.fillna(other)`: keep present values, take `other` at absent
positions. -/
def fillna (s other : List (Option ℚ)) : List (Option ℚ) :=
  (List.range s.length).map (fun i =>
    match s.getD i none with
    | some v => some v
    | none => other.getD i none)

/-- Line 50: `df_full['USDtoZAR'].fillna(df_full['USDtoZAR'].rolling(3).mean())`. -/
def USDtoZAR_Fill_step1 (s : List (Option ℚ)) : List (Option ℚ) :=
  fillna s (rolling3mean s)

/-- The nearest present position strictly before `i` and its value. -/
def lastSomeBefore (s : List (Option ℚ)) : Nat → Option (Nat × ℚ)
  | 0 => none
  | i + 1 =>
    match s.getD i none with
    | some v => some (i, v)
    | none => lastSomeBefore s i

/-- Scan a tail of the series (whose first element has position `i`) for
its first present value. -/
def firstSomeAux : List (Option ℚ) → Nat → Option (Nat × ℚ)
  | [], _ => none
  | none :: t, i => firstSomeAux t (i + 1)
  | some v :: _, i => some (i, v)

/-- The nearest present position at or after `i` and its value. -/
def firstSomeFrom (s : List (Option ℚ)) (i : Nat) : Option (Nat × ℚ) :=
  firstSomeAux (s.drop i) i

/-- One position of `Series.interpolate()` (pandas `method='linear'`,
`limit_direction='forward'`): present values stay; an absent position
with a present predecessor is filled linearly against the next present
position, or held at the predecessor's value when none follows; an
absent position before the first present value stays absent. -/
def interpAt (s : List (Option ℚ)) (i : Nat) : Option ℚ :=
  match s.getD i none with
  | some v => some v
  | none =>
    match lastSomeBefore s i with
    | none => none
    | some (j, vj) =>
      match firstSomeFrom s (i + 1) with
      | some (k, vk) => some (vj + (vk - vj) * (((i : ℚ) - j) / ((k : ℚ) - j)))
      | none => some vj

/-- `Series.interpolate()` over the whole series. -/
def interpolateLinear (s : List (Option ℚ)) : List (Option ℚ) :=
  (List.range s.length).map (interpAt s)

/-- Lines 50 and 55 composed: the final `USDtoZAR_Fill` column. -/
def USDtoZAR_Fill (s : List (Option ℚ)) : List (Option ℚ) :=
  interpolateLinear (USDtoZAR_Fill_step1 s)

/-! ### Monthly averages (lines 58–60)

A filled daily row is `(year-month key, filled value)`; keys are encoded
as `Nat`. The pipeline feeds rows in ascending date order, so months
first appear in ascending order and `dedup` lists them exactly as the
sorted pandas `groupby` does. -/

/-- The numeric (non-`NaN`) filled values of month `k`. -/
def monthVals (rows : List (Nat × Option ℚ)) (k : Nat) : List ℚ :=
  (rows.filter (fun r => r.1 = k)).filterMap Prod.snd

/-- `groupby(...)[...].mean()` for one group: pandas skips `NaN` and
returns `NaN` on an all-`NaN` group. -/
def groupMean (rows : List (Nat × Option ℚ)) (k : Nat) : Option ℚ :=
  if (monthVals rows k).length = 0 then none
  else some ((monthVals rows k).sum / (monthVals rows k).length)

/-- Lines 58–60: one row per distinct month of the input, carrying the
group mean (possibly `NaN`). -/
def monthly_avg_df (rows : List (Nat × Option ℚ)) : List (Nat × Option ℚ) :=
  ((rows.map Prod.fst).dedup).map (fun k => (k, groupMean rows k))

/-! ### The daily/monthly merge, row level (lines 63–64) -/

/-- `pd.merge(..., how='left')` keyed by `key`: each left row in order,
paired with every matching right row, or with `none` when the right
table has no row for its key. -/
def leftJoin {α β : Type} (key : α → Nat) (left : List α) (right : List (Nat × β)) :
    List (α × Option β) :=
  left.flatMap (fun l =>
    match right.filter (fun r => r.1 = key l) with
    | [] => [(l, none)]
    | ms => ms.map (fun r => (l, some r.2)))

/-- Lines 63–64 applied in the pipeline: join the filled daily rows with
the monthly averages computed from those same rows, on the month key. -/
def combined_rows (rows : List (Nat × Option ℚ)) :
    List ((Nat × Option ℚ) × Option (Option ℚ)) :=
  leftJoin Prod.fst rows (monthly_avg_df rows)

/-! ### The daily/monthly merge, column level (lines 63–73)

`df_full` enters the merge with columns
`[InformationDate, USDtoZAR, USDtoZAR_Fill, YearMonth]` and
`monthly_avg_df` with `[YearMonth, USDtoZAR_Fill]`. `left_on` is an
external key series, so pandas suffixes every overlapping column name
and re-inserts the join key (named `YearMonth` from `right_on`) when
that name is no longer among the suffixed columns. `drop` raises
`KeyError` when a listed column is missing. -/

def df_full_columns : List String :=
  ["InformationDate", "USDtoZAR", "USDtoZAR_Fill", "YearMonth"]

def monthly_avg_columns : List String :=
  ["YearMonth", "USDtoZAR_Fill"]

/-- Append `suf` to each column name that also occurs on the other side. -/
def suffixCols (cols other : List String) (suf : String) : List String :=
  cols.map (fun c => if c ∈ other then c ++ suf else c)

/-- The column list of `pd.merge(left, right, left_on=<series>,
right_on=joinName, suffixes=(sl, sr))`. -/
def mergeColumns (left right : List String) (joinName sl sr : String) : List String :=
  let merged := suffixCols left right sl ++ suffixCols right left sr
  if joinName ∈ merged then merged else joinName :: merged

/-- `DataFrame.drop(columns=toDrop)`: `KeyError` when a name is absent. -/
def dropColumns (cols toDrop : List String) : Except String (List String) :=
  if toDrop.all (fun c => c ∈ cols) then
    Except.ok (cols.filter (fun c => ¬ c ∈ toDrop))
  else Except.error "KeyError"

/-- The rename of lines 70–73. -/
def renameCombined (c : String) : String :=
  if c = "USDtoZAR_Fill_daily" then "USDtoZAR_Fill"
  else if c = "USDtoZAR_Fill_monthly" then "USDtoZAR_MonthlyAver"
  else c

/-- Lines 63–73: the column list of the final `combined_df`. -/
def combined_df_columns : Except String (List String) :=
  (dropColumns (mergeColumns df_full_columns monthly_avg_columns "YearMonth" "_daily" "_monthly")
      ["YearMonth", "YearMonth_daily", "YearMonth_monthly"]).map
    (List.map renameCombined)

/-! ### The program's observable behaviour (lines 10–107)

The script is one straight run: fetch, the `if response.status_code == 200`
fork, and then — outside the fork — the plotting block. Its observable
effects in order. -/

/-- One observable step of the script. -/
inductive Effect : Type
  | printMsg : String → Effect
  | printFrame : Effect
  | writeCsv : String → Effect
  | newFigure : Effect
  | showPlot : Effect
  | raise : String → Effect
deriving DecidableEq, Repr

/-- The effect trace of the script, given the HTTP status and the parsed
date/rate-table document. On status 200 the pipeline runs (an error
raised while building `data` aborts the run); on any other status line 83
prints the diagnostic, after which control still falls into the plotting
block of lines 85–107, where line 87 opens a figure and line 88 reads
`combined_df` — a name the failure branch never bound — so Python raises
`NameError` before any file write or `plt.show()`. -/
def runProgram (status : Nat) (doc : List (String × List (String × ℚ))) :
    List Effect :=
  if status = 200 then
    match buildData doc with
    | Except.error e => [Effect.raise e]
    | Except.ok _ =>
        [Effect.writeCsv "USDtoZAR_ExchangeRates.csv",
         Effect.printMsg "Combined daily and monthly average exchange rates with extrapolated values saved to USDtoZAR_ExchangeRates.csv",
         Effect.printFrame,
         Effect.newFigure, Effect.newFigure, Effect.showPlot]
  else
    [Effect.printMsg "Failed to fetch historical exchange rate data from ECB.",
     Effect.newFigure,
     Effect.raise "NameError: name combined_df is not defined"]

/-! ### Helper lemmas -/

theorem getD_map_range {α : Type} (f : Nat → α) (d : α) {n i : Nat} (h : i < n) :
    ((List.range n).map f).getD i d = f i := by
  have hl : i < ((List.range n).map f).length := by simpa using h
  rw [List.getD_eq_getElem _ _ hl]
  simp

theorem length_USDtoZAR_Fill_step1 (s : List (Option ℚ)) :
    (USDtoZAR_Fill_step1 s).length = s.length := by
  simp [USDtoZAR_Fill_step1, fillna]

theorem length_USDtoZAR_Fill (s : List (Option ℚ)) :
    (USDtoZAR_Fill s).length = s.length := by
  simp [USDtoZAR_Fill, interpolateLinear, length_USDtoZAR_Fill_step1]

/-- Line 50 is the identity: at every absent position the 3-day window
contains that very position, so under `min_periods = 3` the rolling mean
is itself absent and `fillna` replaces nothing. -/
theorem USDtoZAR_Fill_step1_eq_self (s : List (Option ℚ)) :
    USDtoZAR_Fill_step1 s = s := by
  apply List.ext_getElem (by simp [USDtoZAR_Fill_step1, fillna])
  intro i h1 h2
  have hlen : i < s.length := h2
  unfold USDtoZAR_Fill_step1 fillna
  have hmr : i < (List.range s.length).length := by simpa using hlen
  rw [List.getElem_map, List.getElem_range]
  cases hc : s.getD i none with
  | some v =>
    rw [List.getD_eq_getElem _ _ hlen] at hc
    simp [hc]
  | none =>
    have hr : (rolling3mean s).getD i none = none := by
      unfold rolling3mean
      rw [getD_map_range _ _ hlen]
      by_cases h2i : 2 ≤ i
      · rw [if_pos h2i, hc]
        cases s.getD (i - 2) none <;> cases s.getD (i - 1) none <;> rfl
      · rw [if_neg h2i]
    show (rolling3mean s).getD i none = s[i]
    rw [hr]
    exact ((List.getD_eq_getElem s none hlen).symm.trans hc).symm

theorem USDtoZAR_Fill_getD (s : List (Option ℚ)) {i : Nat} (h : i < s.length) :
    (USDtoZAR_Fill s).getD i none = interpAt s i := by
  unfold USDtoZAR_Fill interpolateLinear
  rw [USDtoZAR_Fill_step1_eq_self]
  exact getD_map_range _ _ h

theorem firstSomeFrom_of_some {s : List (Option ℚ)} {a : Nat} {v : ℚ}
    (h : s.getD a none = some v) : firstSomeFrom s a = some (a, v) := by
  have ha : a < s.length := by
    by_contra hl
    rw [List.getD_eq_default _ _ (by omega)] at h
    exact Option.noConfusion h
  have hs : s[a] = some v := (List.getD_eq_getElem s none ha).symm.trans h
  unfold firstSomeFrom
  rw [List.drop_eq_getElem_cons ha, hs]
  rfl

theorem firstSomeFrom_of_none {s : List (Option ℚ)} {a : Nat}
    (h : s.getD a none = none) : firstSomeFrom s a = firstSomeFrom s (a + 1) := by
  by_cases ha : a < s.length
  · have hs : s[a] = none := (List.getD_eq_getElem s none ha).symm.trans h
    unfold firstSomeFrom
    rw [List.drop_eq_getElem_cons ha, hs]
    rfl
  · unfold firstSomeFrom
    rw [List.drop_eq_nil_of_le (by omega), List.drop_eq_nil_of_le (by omega)]
    rfl

theorem firstSomeAux_eq_none : ∀ (t : List (Option ℚ)) (i : Nat),
    (∀ x ∈ t, x = none) → firstSomeAux t i = none
  | [], _, _ => rfl
  | none :: t, i, h =>
      firstSomeAux_eq_none t (i + 1) (fun x hx => h x (List.mem_cons_of_mem _ hx))
  | some v :: t, _, h => absurd (h _ (List.mem_cons_self _ _)) (by simp)

theorem firstSomeFrom_eq_none {s : List (Option ℚ)} {a : Nat}
    (h : ∀ k, a ≤ k → k < s.length → s.getD k none = none) :
    firstSomeFrom s a = none := by
  unfold firstSomeFrom
  apply firstSomeAux_eq_none
  intro x hx
  obtain ⟨m, hm, hmx⟩ := List.mem_iff_getElem.mp hx
  have hms : a + m < s.length := by
    have := hm
    simp only [List.length_drop] at this
    omega
  have : (s.drop a)[m] = s[a + m] := by
    rw [List.getElem_drop]
  rw [this] at hmx
  have := h (a + m) (by omega) hms
  rw [List.getD_eq_getElem s none hms] at this
  rw [← hmx, this]

theorem firstSomeFrom_eq_of {s : List (Option ℚ)} {k : Nat} {v : ℚ}
    (hk : s.getD k none = some v) :
    ∀ (n a : Nat), k - a = n → a ≤ k → (∀ m, a ≤ m → m < k → s.getD m none = none) →
      firstSomeFrom s a = some (k, v)
  | 0, a, hd, hak, _ => by
    have : a = k := by omega
    subst this
    exact firstSomeFrom_of_some hk
  | n + 1, a, hd, hak, hmid => by
    have ha : s.getD a none = none := hmid a le_rfl (by omega)
    rw [firstSomeFrom_of_none ha]
    exact firstSomeFrom_eq_of hk n (a + 1) (by omega) (by omega)
      (fun m h1 h2 => hmid m (by omega) h2)

theorem lastSomeBefore_succ (s : List (Option ℚ)) (i : Nat) :
    lastSomeBefore s (i + 1) =
      match s.getD i none with
      | some v => some (i, v)
      | none => lastSomeBefore s i := rfl

theorem lastSomeBefore_eq_of {s : List (Option ℚ)} {j : Nat} {v : ℚ}
    (hj : s.getD j none = some v) :
    ∀ i, j < i → (∀ k, j < k → k < i → s.getD k none = none) →
      lastSomeBefore s i = some (j, v) := by
  intro i
  induction i with
  | zero => intro h _; exact absurd h (Nat.not_lt_zero j)
  | succ n ih =>
    intro hlt hmid
    rw [lastSomeBefore_succ]
    rcases Nat.lt_or_ge j n with hc | hc
    · rw [hmid n hc (Nat.lt_succ_self n)]
      exact ih hc (fun k hk1 hk2 => hmid k hk1 (Nat.lt_succ_of_lt hk2))
    · have hjn : j = n := by omega
      subst hjn
      rw [hj]

theorem lastSomeBefore_isSome_mono {s : List (Option ℚ)} {i i' : Nat} (h : i ≤ i')
    (hs : (lastSomeBefore s i).isSome) : (lastSomeBefore s i').isSome := by
  induction i' with
  | zero =>
    have : i = 0 := by omega
    subst this
    exact hs
  | succ n ih =>
    rcases Nat.lt_or_ge i (n + 1) with hc | hc
    · have hn := ih (by omega)
      rw [lastSomeBefore_succ]
      cases hg : s.getD n none
      · exact hn
      · rfl
    · have : i = n + 1 := by omega
      subst this
      exact hs

theorem lastSomeBefore_isSome_of_some {s : List (Option ℚ)} {j i : Nat} {v : ℚ}
    (hj : s.getD j none = some v) (hji : j < i) : (lastSomeBefore s i).isSome := by
  have h1 : (lastSomeBefore s (j + 1)).isSome := by
    rw [lastSomeBefore_succ, hj]
    rfl
  exact lastSomeBefore_isSome_mono (by omega) h1

theorem interpAt_isSome_of_lastSome {s : List (Option ℚ)} {i : Nat}
    (h : (lastSomeBefore s i).isSome) : (interpAt s i).isSome := by
  unfold interpAt
  cases hc : s.getD i none
  · obtain ⟨⟨j, vj⟩, hjv⟩ := Option.isSome_iff_exists.mp h
    rw [hjv]
    cases firstSomeFrom s (i + 1) <;> rfl
  · rfl

theorem interpAt_isSome_iff {s : List (Option ℚ)} {i : Nat} :
    (interpAt s i).isSome ↔ (s.getD i none).isSome ∨ (lastSomeBefore s i).isSome := by
  constructor
  · intro h
    by_cases hc : (s.getD i none).isSome
    · exact Or.inl hc
    · have hcn : s.getD i none = none := Option.not_isSome_iff_eq_none.mp hc
      right
      by_contra hns
      have hln : lastSomeBefore s i = none := Option.not_isSome_iff_eq_none.mp hns
      unfold interpAt at h
      rw [hcn, hln] at h
      simp at h
  · intro h
    rcases h with h | h
    · obtain ⟨v, hv⟩ := Option.isSome_iff_exists.mp h
      unfold interpAt
      rw [hv]
      rfl
    · exact interpAt_isSome_of_lastSome h

theorem filter_eq_singleton_of_nodup {l : List Nat} {k : Nat}
    (hn : l.Nodup) (hk : k ∈ l) : l.filter (fun x => x = k) = [k] := by
  induction l with
  | nil => cases hk
  | cons a t ih =>
    rw [List.filter_cons]
    rcases List.mem_cons.mp hk with rfl | hk'
    · have hat : t.filter (fun x => x = k) = [] :=
        List.filter_eq_nil_iff.mpr (fun x hx => by
          simp only [decide_eq_true_eq]
          rintro rfl
          exact (List.nodup_cons.mp hn).1 hx)
      simp [hat]
    · have ha : ¬(a = k) := by
        rintro rfl
        exact (List.nodup_cons.mp hn).1 hk'
      rw [if_neg (by simp [ha])]
      exact ih (List.nodup_cons.mp hn).2 hk'

theorem filter_eq_nil_of_not_mem {l : List Nat} {k : Nat} (hk : k ∉ l) :
    l.filter (fun x => x = k) = [] :=
  List.filter_eq_nil_iff.mpr (fun x hx => by
    simp only [decide_eq_true_eq]
    rintro rfl
    exact hk hx)

/-- Exactly one monthly-average row carries a key present in the input. -/
theorem monthly_avg_df_filter_of_mem (rows : List (Nat × Option ℚ)) {k : Nat}
    (hk : k ∈ rows.map Prod.fst) :
    (monthly_avg_df rows).filter (fun r => r.1 = k) = [(k, groupMean rows k)] := by
  unfold monthly_avg_df
  rw [List.filter_map]
  have hcomp :
      ((fun r : Nat × Option ℚ => decide (r.1 = k)) ∘ fun k' => (k', groupMean rows k'))
        = fun x => decide (x = k) := rfl
  rw [hcomp, filter_eq_singleton_of_nodup (List.nodup_dedup _) (List.mem_dedup.mpr hk)]
  rfl

theorem monthly_avg_df_filter_of_not_mem (rows : List (Nat × Option ℚ)) {k : Nat}
    (hk : k ∉ rows.map Prod.fst) :
    (monthly_avg_df rows).filter (fun r => r.1 = k) = [] := by
  unfold monthly_avg_df
  rw [List.filter_map]
  have hcomp :
      ((fun r : Nat × Option ℚ => decide (r.1 = k)) ∘ fun k' => (k', groupMean rows k'))
        = fun x => decide (x = k) := rfl
  rw [hcomp, filter_eq_nil_of_not_mem (fun h => hk (List.mem_dedup.mp h))]
  rfl

theorem length_flatMap_of_forall_one {α γ : Type} (g : α → List γ) :
    ∀ left : List α, (∀ l ∈ left, (g l).length = 1) →
      (left.flatMap g).length = left.length
  | [], _ => rfl
  | a :: t, h => by
    rw [List.flatMap_cons, List.length_append, h a (List.mem_cons_self a t),
        length_flatMap_of_forall_one g t (fun l hl => h l (List.mem_cons_of_mem a hl)),
        List.length_cons]
    omega

/-! ### The claims -/

/-- C1: for every date on which both the USD and ZAR reference rates are
present (rates are positive per the data model), the derived entry is the
ZAR-to-EUR rate divided by the USD-to-EUR rate; a date lacking either
rate contributes no entry; and the derived series is exactly the
in-order collection of the per-date entries. -/
theorem crossRate_derivation :
    (∀ (d : String) (rs : List (String × ℚ)) (u z : ℚ),
        lookupRate "USD" rs = some u → lookupRate "ZAR" rs = some z → 0 < u →
        usd_to_zar_entry d rs = Except.ok (some (d, z / u)))
    ∧ (∀ (d : String) (rs : List (String × ℚ)),
        lookupRate "USD" rs = none ∨ lookupRate "ZAR" rs = none →
        usd_to_zar_entry d rs = Except.ok none)
    ∧ (∀ doc : List (String × List (String × ℚ)),
        (∀ p ∈ doc, ∃ e, usd_to_zar_entry p.1 p.2 = Except.ok e) →
        buildData doc = Except.ok (doc.filterMap okEntry)) := by
  refine ⟨?_, ?_, ?_⟩
  · intro d rs u z hu hz hpos
    simp only [usd_to_zar_entry, hu, hz]
    rw [if_neg (ne_of_gt hpos)]
  · intro d rs h
    rcases h with h | h
    · simp only [usd_to_zar_entry, h]
    · simp only [usd_to_zar_entry, h]
      cases lookupRate "USD" rs <;> rfl
  · intro doc h
    induction doc with
    | nil => rfl
    | cons p t ih =>
      obtain ⟨e, he⟩ := h p (List.mem_cons_self p t)
      have ht := ih (fun q hq => h q (List.mem_cons_of_mem _ hq))
      obtain ⟨d, rs⟩ := p
      show buildData ((d, rs) :: t) = _
      unfold buildData
      rw [he, ht]
      show (match e with
            | some ent => Except.ok (ent :: t.filterMap okEntry)
            | none => Except.ok (t.filterMap okEntry)) = _
      have hok : okEntry (d, rs) = e := by
        unfold okEntry
        rw [he]
      cases e with
      | some ent => rw [List.filterMap_cons, hok]
      | none => rw [List.filterMap_cons, hok]

/-- C1 witness: a date with both rates, one without ZAR, and the series
built from the two. -/
theorem crossRate_derivation_witness :
    usd_to_zar_entry "2024-01-05" [("USD", (11:ℚ)/10), ("ZAR", (39:ℚ)/2)]
      = Except.ok (some ("2024-01-05", (39/2 : ℚ) / (11/10)))
    ∧ usd_to_zar_entry "2024-01-06" [("USD", (11:ℚ)/10)] = Except.ok none
    ∧ buildData
        [("2024-01-05", [("USD", (11:ℚ)/10), ("ZAR", (39:ℚ)/2)]),
         ("2024-01-06", [("USD", (11:ℚ)/10)])]
      = Except.ok
          ([("2024-01-05", [("USD", (11:ℚ)/10), ("ZAR", (39:ℚ)/2)]),
            ("2024-01-06", [("USD", (11:ℚ)/10)])].filterMap okEntry) :=
  ⟨crossRate_derivation.1 "2024-01-05" _ ((11:ℚ)/10) ((39:ℚ)/2)
      (by simp [lookupRate]) (by simp [lookupRate]) (by norm_num),
   crossRate_derivation.2.1 "2024-01-06" _ (Or.inr (by simp [lookupRate])),
   crossRate_derivation.2.2 _ (by
     intro p hp
     rcases List.mem_cons.mp hp with rfl | hp
     · exact ⟨some ("2024-01-05", (39/2 : ℚ) / (11/10)), by simp [usd_to_zar_entry, lookupRate]⟩
     rcases List.mem_cons.mp hp with rfl | hp
     · exact ⟨none, by simp [usd_to_zar_entry, lookupRate]⟩
     · exact absurd hp (List.not_mem_nil p))⟩

/-- C7 counterexample: a date whose USD reference rate is zero is not
silently excluded — the division is attempted and raises
`ZeroDivisionError`. -/
theorem crossRate_zero_counterexample :
    usd_to_zar_entry "2024-01-02" [("USD", (0:ℚ)), ("ZAR", (39:ℚ)/2)]
      = Except.error "ZeroDivisionError"
    ∧ usd_to_zar_entry "2024-01-02" [("USD", (0:ℚ)), ("ZAR", (39:ℚ)/2)]
      ≠ Except.ok none := by
  constructor
  · simp [usd_to_zar_entry, lookupRate]
  · simp [usd_to_zar_entry, lookupRate]

/-- C7 amended: the cross-rate step guards only on presence of the two
rates, with no zero check; with both present, a zero USD rate raises
`ZeroDivisionError` (aborting the run) instead of yielding no entry,
and a non-zero USD rate yields the quotient entry. -/
theorem crossRate_no_zero_guard (d : String) (rs : List (String × ℚ)) (z : ℚ)
    (hz : lookupRate "ZAR" rs = some z) :
    (lookupRate "USD" rs = some 0 →
      usd_to_zar_entry d rs = Except.error "ZeroDivisionError")
    ∧ (∀ u, lookupRate "USD" rs = some u → u ≠ 0 →
      usd_to_zar_entry d rs = Except.ok (some (d, z / u))) := by
  constructor
  · intro hu
    simp only [usd_to_zar_entry, hu, hz]
    simp
  · intro u hu hne
    simp only [usd_to_zar_entry, hu, hz]
    rw [if_neg hne]

/-- C7 amended witness: at the zero-USD table the entry raises; at a
non-zero table it is the quotient. -/
theorem crossRate_no_zero_guard_witness :
    usd_to_zar_entry "2024-01-02" [("USD", (0:ℚ)), ("ZAR", (39:ℚ)/2)]
      = Except.error "ZeroDivisionError"
    ∧ usd_to_zar_entry "2024-01-03" [("USD", (2:ℚ)), ("ZAR", (39:ℚ)/2)]
      = Except.ok (some ("2024-01-03", (39/2 : ℚ) / 2)) :=
  ⟨(crossRate_no_zero_guard "2024-01-02" [("USD", (0:ℚ)), ("ZAR", (39:ℚ)/2)]
      ((39:ℚ)/2) (by simp [lookupRate])).1 (by simp [lookupRate]),
   (crossRate_no_zero_guard "2024-01-03" [("USD", (2:ℚ)), ("ZAR", (39:ℚ)/2)]
      ((39:ℚ)/2) (by simp [lookupRate])).2 2 (by simp [lookupRate]) (by norm_num)⟩

/-- C2 counterexample: at `[1, 2, absent]` the claim predicts the
candidate `(1+2)/2` at the absent position (mean of the numeric subset of
the window); the code's rolling mean uses `min_periods = 3` and the
window contains the absent current position, so the step leaves the
position absent. -/
theorem rollingFill_subsetMean_counterexample :
    (USDtoZAR_Fill_step1 [some 1, some 2, none]).getD 2 none ≠ some ((1 + 2) / 2)
    ∧ USDtoZAR_Fill_step1 [some 1, some 2, none] = [some 1, some 2, none] := by
  constructor
  · rw [USDtoZAR_Fill_step1_eq_self]
    simp
  · exact USDtoZAR_Fill_step1_eq_self _

/-- C2 amended: the rolling candidate exists only when all three window
positions `d-2, d-1, d` are numeric; at a date with a missing value the
window contains that missing value, so the candidate is absent and the
first fill step changes nothing at all. -/
theorem rollingFill_full_window_only :
    (∀ s : List (Option ℚ), USDtoZAR_Fill_step1 s = s)
    ∧ (∀ (s : List (Option ℚ)) (i : Nat), i < s.length → s.getD i none = none →
        (rolling3mean s).getD i none = none) := by
  constructor
  · exact USDtoZAR_Fill_step1_eq_self
  · intro s i hlen hc
    unfold rolling3mean
    rw [getD_map_range _ _ hlen]
    by_cases h2i : 2 ≤ i
    · rw [if_pos h2i, hc]
      cases s.getD (i - 2) none <;> cases s.getD (i - 1) none <;> rfl
    · rw [if_neg h2i]

/-- C2 amended witness: the candidate at the absent position of
`[1, 2, absent]` is absent. -/
theorem rollingFill_full_window_only_witness :
    (rolling3mean [some 1, some 2, none]).getD 2 none = none :=
  rollingFill_full_window_only.2 [some 1, some 2, none] 2 (by norm_num) (by simp)

/-- C3: in the filled series present positions are upward closed — every
position at or after a present position is itself present — so the only
positions that can remain absent form a prefix at the start. -/
theorem fill_present_upward_closed (s : List (Option ℚ)) {j i : Nat}
    (hji : j ≤ i) (hi : i < s.length)
    (hj : ((USDtoZAR_Fill s).getD j none).isSome) :
    ((USDtoZAR_Fill s).getD i none).isSome := by
  have hjlen : j < s.length := by
    by_contra hc
    rw [List.getD_eq_default _ _ (by rw [length_USDtoZAR_Fill]; omega)] at hj
    simp at hj
  rw [USDtoZAR_Fill_getD s hjlen] at hj
  rw [USDtoZAR_Fill_getD s hi]
  rw [interpAt_isSome_iff] at hj ⊢
  rcases hj with hj | hj
  · rcases Nat.eq_or_lt_of_le hji with rfl | hlt
    · exact Or.inl hj
    · obtain ⟨v, hv⟩ := Option.isSome_iff_exists.mp hj
      exact Or.inr (lastSomeBefore_isSome_of_some hv hlt)
  · exact Or.inr (lastSomeBefore_isSome_mono hji hj)

/-- C3 witness: in `[absent, 1, absent]` position 1 is present after
filling, hence so is position 2 (position 0 may stay absent). -/
theorem fill_present_upward_closed_witness :
    ((USDtoZAR_Fill [none, some 1, none]).getD 2 none).isSome :=
  @fill_present_upward_closed [none, some 1, none] 1 2 (by omega) (by norm_num)
    (by
      rw [USDtoZAR_Fill_getD _ (by norm_num)]
      simp [interpAt])

/-- C4: a position still absent after the rolling step, with a nearest
present predecessor `j` and nearest present successor `k`, is filled by
linear interpolation between their values; in particular the 5-day
series `[10, absent, absent, absent, 15]` fills to
`[10, 11.25, 12.5, 13.75, 15]`. -/
theorem fill_linear_between_neighbors :
    (∀ (s : List (Option ℚ)) (i j k : Nat) (vj vk : ℚ),
      (USDtoZAR_Fill_step1 s).getD i none = none →
      j < i → s.getD j none = some vj →
      (∀ m, j < m → m < i → s.getD m none = none) →
      i < k → k < s.length → s.getD k none = some vk →
      (∀ m, i < m → m < k → s.getD m none = none) →
      (USDtoZAR_Fill s).getD i none
        = some (vj + (vk - vj) * (((i : ℚ) - j) / ((k : ℚ) - j))))
    ∧ USDtoZAR_Fill [some 10, none, none, none, some 15]
        = [some 10, some (45/4), some (25/2), some (55/4), some 15] := by
  constructor
  · intro s i j k vj vk habs hji hj hmidl hik hklen hkv hmidr
    rw [USDtoZAR_Fill_step1_eq_self] at habs
    have hilen : i < s.length := by omega
    have h1 : lastSomeBefore s i = some (j, vj) := lastSomeBefore_eq_of hj i hji hmidl
    have h2 : firstSomeFrom s (i + 1) = some (k, vk) :=
      firstSomeFrom_eq_of hkv (k - (i + 1)) (i + 1) (by omega) (by omega)
        (fun m hm1 hm2 => hmidr m (by omega) hm2)
    rw [USDtoZAR_Fill_getD s hilen]
    simp only [interpAt, habs, h1, h2]
  · rw [USDtoZAR_Fill, USDtoZAR_Fill_step1_eq_self]
    norm_num [interpolateLinear, interpAt, lastSomeBefore, firstSomeFrom, firstSomeAux,
      List.range_succ]

/-- C4 witness: position 2 of the 5-day scenario is the midpoint. -/
theorem fill_linear_between_neighbors_witness :
    (USDtoZAR_Fill [some 10, none, none, none, some 15]).getD 2 none
      = some (10 + (15 - 10) * ((((2:Nat) : ℚ) - ((0:Nat) : ℚ)) / (((4:Nat) : ℚ) - ((0:Nat) : ℚ)))) :=
  fill_linear_between_neighbors.1 [some 10, none, none, none, some 15] 2 0 4 10 15
    (by rw [USDtoZAR_Fill_step1_eq_self]; simp)
    (by omega) (by simp)
    (by intro m h1 h2; interval_cases m; simp)
    (by omega) (by norm_num) (by simp)
    (by intro m h1 h2; interval_cases m; simp)

/-- C10: every axis position strictly after the last present value is
filled with that value (a constant forward extrapolation, with no later
neighbour involved), and the date axis of line 40 runs through the run
date. -/
theorem fill_constant_after_last :
    (∀ (s : List (Option ℚ)) (j : Nat) (v : ℚ),
      s.getD j none = some v →
      (∀ k, j < k → k < s.length → s.getD k none = none) →
      ∀ i, j < i → i < s.length → (USDtoZAR_Fill s).getD i none = some v)
    ∧ (∀ (data : List (Nat × ℚ)) (today : Nat), minDate data ≤ today →
        today ∈ (df_full data today).map Prod.fst) := by
  constructor
  · intro s j v hj hafter i hji hi
    have habs : s.getD i none = none := hafter i hji hi
    have h1 : lastSomeBefore s i = some (j, v) :=
      lastSomeBefore_eq_of hj i hji (fun k hk1 hk2 => hafter k hk1 (by omega))
    have h2 : firstSomeFrom s (i + 1) = none :=
      firstSomeFrom_eq_none (fun k hk1 hk2 => hafter k (by omega) hk2)
    rw [USDtoZAR_Fill_getD s hi]
    simp only [interpAt, habs, h1, h2]
  · intro data today h
    have hmap : (df_full data today).map Prod.fst = all_dates (minDate data) today := by
      rw [df_full, List.map_map]
      exact List.map_id _
    rw [hmap]
    unfold all_dates
    rw [List.mem_range']
    exact ⟨today - minDate data, by omega, by omega⟩

/-- C10 witness: in `[2, absent, absent]` the trailing positions take the
value 2, and day 7 is on the axis built from an observation on day 5. -/
theorem fill_constant_after_last_witness :
    (USDtoZAR_Fill [some 2, none, none]).getD 2 none = some 2
    ∧ 7 ∈ (df_full [(5, (2:ℚ))] 7).map Prod.fst :=
  ⟨fill_constant_after_last.1 [some 2, none, none] 0 2 (by simp)
      (by intro k h1 h2; simp at h2; interval_cases k <;> simp)
      2 (by omega) (by norm_num),
   fill_constant_after_last.2 [(5, (2:ℚ))] 7 (by simp [minDate])⟩

/-- C5 counterexample: a filled daily series can consist of one absent
day (an unfillable boundary), and the aggregator emits that month as a
row with an absent average rather than omitting it. -/
theorem monthlyAvg_emptyMonth_counterexample :
    USDtoZAR_Fill [none] = [none]
    ∧ monthly_avg_df [(0, (none : Option ℚ))] = [(0, none)]
    ∧ monthly_avg_df [(0, (none : Option ℚ))] ≠ [] := by
  refine ⟨?_, ?_, ?_⟩
  · rw [USDtoZAR_Fill, USDtoZAR_Fill_step1_eq_self]
    simp [interpolateLinear, interpAt, lastSomeBefore, List.range_succ]
  · simp [monthly_avg_df, groupMean, monthVals]
  · simp [monthly_avg_df]

/-- C5 amended: every month present in the filled series produces exactly
one average row; its average is the arithmetic mean of the month's
non-absent values when there is at least one, and absent (`NaN`) — not an
omitted row — when the month has none; months not present in the series
produce no row. -/
theorem monthlyAvg_rows (rows : List (Nat × Option ℚ)) (k : Nat) :
    (k ∈ rows.map Prod.fst →
      (monthly_avg_df rows).filter (fun r => r.1 = k) = [(k, groupMean rows k)])
    ∧ (k ∉ rows.map Prod.fst →
      (monthly_avg_df rows).filter (fun r => r.1 = k) = [])
    ∧ ((monthVals rows k).length ≠ 0 →
      groupMean rows k = some ((monthVals rows k).sum / (monthVals rows k).length))
    ∧ ((monthVals rows k).length = 0 → groupMean rows k = none) := by
  refine ⟨?_, ?_, ?_, ?_⟩
  · exact monthly_avg_df_filter_of_mem rows
  · exact monthly_avg_df_filter_of_not_mem rows
  · intro h
    unfold groupMean
    rw [if_neg h]
  · intro h
    unfold groupMean
    rw [if_pos h]

/-- C5 amended witness: with month 0 carrying values 3 and absent, and
month 1 all absent, month 0 averages to 3 and month 1 is emitted absent. -/
theorem monthlyAvg_rows_witness :
    (monthly_avg_df [(0, some 3), (0, none), (1, (none : Option ℚ))]).filter
        (fun r => r.1 = 1)
      = [(1, groupMean [(0, some 3), (0, none), (1, (none : Option ℚ))] 1)] :=
  (monthlyAvg_rows [(0, some 3), (0, none), (1, (none : Option ℚ))] 1).1 (by simp)

/-- C6: on a non-success fetch status the script prints the ECB
diagnostic, writes no CSV and shows no plot — but it does not stop
there: control falls into the unguarded plotting block, which opens a
figure and raises `NameError` on the unbound `combined_df`. -/
theorem fetchFailure_trace (status : Nat) (doc : List (String × List (String × ℚ)))
    (h : status ≠ 200) :
    runProgram status doc
      = [Effect.printMsg "Failed to fetch historical exchange rate data from ECB.",
         Effect.newFigure,
         Effect.raise "NameError: name combined_df is not defined"]
    ∧ (∀ p, Effect.writeCsv p ∉ runProgram status doc)
    ∧ Effect.showPlot ∉ runProgram status doc := by
  have ht : runProgram status doc
      = [Effect.printMsg "Failed to fetch historical exchange rate data from ECB.",
         Effect.newFigure,
         Effect.raise "NameError: name combined_df is not defined"] := by
    unfold runProgram
    rw [if_neg h]
  refine ⟨ht, ?_, ?_⟩
  · intro p
    rw [ht]
    simp
  · rw [ht]
    simp

/-- C6 witness: the failure trace at status 404. -/
theorem fetchFailure_trace_witness :
    runProgram 404 []
      = [Effect.printMsg "Failed to fetch historical exchange rate data from ECB.",
         Effect.newFigure,
         Effect.raise "NameError: name combined_df is not defined"] :=
  (fetchFailure_trace 404 [] (by omega)).1

/-- C8: the daily/monthly merge of the pipeline returns exactly one row
per filled daily row — none dropped, none duplicated — and, in general,
a left-join row whose key has no match on the right receives an absent
value. -/
theorem merge_preserves_rows :
    (∀ rows : List (Nat × Option ℚ), (combined_rows rows).length = rows.length)
    ∧ (∀ (left right : List (Nat × Option ℚ)) (l : Nat × Option ℚ),
        l ∈ left → right.filter (fun r => r.1 = l.1) = [] →
        (l, (none : Option (Option ℚ))) ∈ leftJoin Prod.fst left right) := by
  constructor
  · intro rows
    unfold combined_rows leftJoin
    apply length_flatMap_of_forall_one
    intro l hl
    have hk : l.1 ∈ rows.map Prod.fst := List.mem_map_of_mem Prod.fst hl
    rw [monthly_avg_df_filter_of_mem rows hk]
    rfl
  · intro left right l hl hfilter
    unfold leftJoin
    rw [List.mem_flatMap]
    refine ⟨l, hl, ?_⟩
    rw [hfilter]
    exact List.mem_singleton.mpr rfl

/-- C8 witness: three daily rows over two months merge into three rows;
a key missing from an empty right table joins to an absent value. -/
theorem merge_preserves_rows_witness :
    (combined_rows [(0, some 3), (0, none), (1, some 5)]).length = 3
    ∧ ((0, (none : Option ℚ)), (none : Option (Option ℚ)))
        ∈ leftJoin Prod.fst [((0 : Nat), (none : Option ℚ))] [] :=
  ⟨merge_preserves_rows.1 [(0, some 3), (0, none), (1, some 5)],
   merge_preserves_rows.2 [((0 : Nat), (none : Option ℚ))] [] (0, none)
     (List.mem_singleton.mpr rfl) rfl⟩

/-- C9: the final merged table has exactly the four columns date, raw
derived value, filled value, monthly average — no duplicates, and no
helper or join-key column survives the drop of lines 67–73. -/
theorem combined_columns_exact :
    combined_df_columns
      = Except.ok ["InformationDate", "USDtoZAR", "USDtoZAR_Fill", "USDtoZAR_MonthlyAver"]
    ∧ ["InformationDate", "USDtoZAR", "USDtoZAR_Fill", "USDtoZAR_MonthlyAver"].Nodup := by
  constructor
  · rfl
  · decide
